import Mathlib

/-!
Verification of the indentation analysis and decoration-assignment engine of
the frame-rainbow editor extension.

The embedding below translates the per-run decoration pipeline of
`LineDecorationContext` (extension source), the helper functions
`getWhitespaceLengthInSpaces`, `getLongestLineLength`, `getTabSize`,
`buildIgnoreErrorsOnLinesRegExps` and `getLinesMatchingRegExps`, and the
`colors` field of the configuration loader `getConfig` (config source).

Conventions:
- Document text and whitespace runs are `List Char`; offsets are `Nat`
  character offsets into the document.  A whitespace run starts at column 0
  of its line (the source regex is anchored with `^`), so offsets within the
  line coincide with run-relative offsets shifted by the run start offset.
- The editor API (`positionAt`, `translate`, `Range`) only repackages
  offsets; ranges are represented directly by their `(start, stop)` offsets.
- JavaScript numbers that are always non-negative integers here become `Nat`;
  the one subtraction that JavaScript performs over possibly-arbitrary
  integers (`longestLineLength - line.text.length`) is modelled over `Int`.
-/

namespace FrameRainbow

/-- A tabmix decoration range: one character `[start, stop)` plus the hover
message attached by `decorateTabmix`. -/
structure TabmixDec where
  start : Nat
  stop : Nat
  hoverMessage : String
  deriving DecidableEq, Repr

/-- A width-error decoration range spanning a whole run, with the hover
message attached by `decorateError`. -/
structure ErrorDec where
  start : Nat
  stop : Nat
  hoverMessage : String
  deriving DecidableEq, Repr

/-- An inner-frame decoration: color group index, the `[start, stop)` range,
and the width (in `ch` units) of the appended filler from
`renderOptions.after.width`. -/
structure InnerDec where
  group : Nat
  start : Nat
  stop : Nat
  afterWidthCh : Int
  deriving DecidableEq, Repr

/-- One depth segment of a whitespace run: `[start, stop)` with its 0-based
depth index.  This is the partition computed by the loop of
`decorateOuterFrames` (which then emits ranges only for depth ≥ 1). -/
structure DepthSegment where
  start : Nat
  stop : Nat
  depth : Nat
  deriving DecidableEq, Repr

/-- The decorations one `LineDecorationContext.decorate` call pushes into the
`DecorationsBuilder` for its whitespace run.  Outer-frame entries are
`(colorGroup, start, stop)` triples. -/
structure RunDecorations where
  outerFrame : List (Nat × Nat × Nat)
  innerFrame : List InnerDec
  errorDecs : List ErrorDec
  tabmix : List TabmixDec
  deriving DecidableEq, Repr

/-- The fields of a `LineDecorationContext` needed by `decorate`:
`text` is the whole document, `ws` the matched whitespace run
(`whitespaceMatch`), `matchStart` its document offset (`matchArray.index`),
`lineLength` the length of `line.text`, and `numColors` the length of the
per-color decoration lists (the configured color count). -/
structure RunInput where
  text : List Char
  ws : List Char
  matchStart : Nat
  lineLength : Nat
  longestLineLength : Nat
  tabSize : Nat
  numColors : Nat
  indentInSpaces : Bool
  skipErrors : Bool
  deriving DecidableEq, Repr

/-- `getWhitespaceLengthInSpaces`: sum over the characters of the run, a tab
contributing `tabSize` columns and any other character 1. -/
def getWhitespaceLengthInSpaces : List Char → Nat → Nat
  | [], _ => 0
  | c :: rest, tabSize =>
    (if c = '\t' then tabSize else 1) + getWhitespaceLengthInSpaces rest tabSize

/-- `getLongestLineLength`: maximum line length over the document's lines. -/
def getLongestLineLength (lines : List (List Char)) : Nat :=
  lines.foldl (fun m l => max m l.length) 0

/-- `getTabSize`: the editor's raw `tabSize` option is a number, a string or
absent; a string, an absent value or the (falsy) number 0 fall back to 4. -/
def getTabSize : Option (Nat ⊕ String) → Nat
  | none => 4
  | some (Sum.inr _) => 4
  | some (Sum.inl n) => if n = 0 then 4 else n

/-- The character `decorateTabmix` treats as unexpected: a tab when the editor
indents with spaces, a space when it indents with tabs. -/
def unexpectedChar (indentInSpaces : Bool) : Char :=
  if indentInSpaces then '\t' else ' '

/-- The name of the unexpected indentation character in hover messages. -/
def unexpectedName (indentInSpaces : Bool) : String :=
  if indentInSpaces then "tab" else "space"

/-- The name of the expected indentation character in hover messages. -/
def expectedName (indentInSpaces : Bool) : String :=
  if indentInSpaces then "space" else "tab"

/-- The hover message of a tabmix decoration. -/
def tabmixHoverMessage (indentInSpaces : Bool) : String :=
  s!"Unexpected {unexpectedName indentInSpaces} in {expectedName indentInSpaces}-indented file"

/-- The `indexOf`-driven loop of `decorateTabmix`: one single-character range
at every occurrence of the unexpected character, in increasing position
order.  (The source finds each occurrence with
`indexOf(unexpectedIndent.char, pos)` and resumes searching at the next
position; walking the run character by character visits exactly the same
occurrence indices in the same order.)  `i` is the document offset of the
current character. -/
def tabmixRangesAux : List Char → Char → Nat → String → List TabmixDec
  | [], _, _, _ => []
  | c :: rest, u, i, hover =>
    if c = u then ⟨i, i + 1, hover⟩ :: tabmixRangesAux rest u (i + 1) hover
    else tabmixRangesAux rest u (i + 1) hover

/-- `decorateTabmix`: if the run contains the unexpected character, push one
range per occurrence and report that errors were found. -/
def decorateTabmix (ws : List Char) (indentInSpaces : Bool) (base : Nat) :
    List TabmixDec × Bool :=
  if ws.contains (unexpectedChar indentInSpaces) then
    (tabmixRangesAux ws (unexpectedChar indentInSpaces) base
      (tabmixHoverMessage indentInSpaces), true)
  else ([], false)

/-- The hover message of a width-error decoration. -/
def errorHoverMessage (whitespaceLengthInSpaces tabSize : Nat) : String :=
  s!"Unexpected indent length: {whitespaceLengthInSpaces} is not divisible by tab size ({tabSize})"

/-- `decorateError`: if the run's visual length is not a multiple of the tab
size, push one range spanning the whole run and report an error. -/
def decorateError (ws : List Char) (tabSize base : Nat) :
    List ErrorDec × Bool :=
  let whitespaceLengthInSpaces := getWhitespaceLengthInSpaces ws tabSize
  if whitespaceLengthInSpaces % tabSize ≠ 0 then
    ([⟨base, base + ws.length,
       errorHoverMessage whitespaceLengthInSpaces tabSize⟩], true)
  else ([], false)

/-- The depth partition computed by the loop of `decorateOuterFrames`:
starting at the run's start, consume one character if the current character
is a tab, `min tabSize remaining` characters otherwise; each consumption is
one segment, with depth indices counting up from `depth`.  `i` is the
document offset of the current position.  The `fuel` argument bounds the
number of iterations; the loop consumes at least one character per iteration
whenever `tabSize ≥ 1` (guaranteed by `getTabSize`), so `fuel = rest.length`
suffices and the fuelled function agrees with the source loop. -/
def depthSegmentsFuel : Nat → List Char → Nat → Nat → Nat → List DepthSegment
  | 0, _, _, _, _ => []
  | _ + 1, [], _, _, _ => []
  | fuel + 1, c :: rest, tabSize, i, depth =>
    let w := if c = '\t' then 1 else min tabSize (rest.length + 1)
    ⟨i, i + w, depth⟩ ::
      depthSegmentsFuel fuel (rest.drop (w - 1)) tabSize (i + w) (depth + 1)

/-- The depth partition of a whitespace run starting at document offset
`start`, depth indices from 0. -/
def depthSegments (ws : List Char) (tabSize start : Nat) : List DepthSegment :=
  depthSegmentsFuel ws.length ws tabSize start 0

/-- The loop of `decorateOuterFrames`: walk the run exactly as
`depthSegmentsFuel` does, skip the segment while `tabDepth = 0` (the
outermost frame keeps the editor background), and for every later segment
push a range covering it into color group `(tabDepth - 1) % numColors`. -/
def decorateOuterFramesFuel :
    Nat → List Char → Nat → Nat → Nat → Nat → List (Nat × Nat × Nat)
  | 0, _, _, _, _, _ => []
  | _ + 1, [], _, _, _, _ => []
  | fuel + 1, c :: rest, tabSize, i, tabDepth, numColors =>
    let w := if c = '\t' then 1 else min tabSize (rest.length + 1)
    if tabDepth = 0 then
      decorateOuterFramesFuel fuel (rest.drop (w - 1)) tabSize (i + w)
        (tabDepth + 1) numColors
    else
      ((tabDepth - 1) % numColors, i, i + w) ::
        decorateOuterFramesFuel fuel (rest.drop (w - 1)) tabSize (i + w)
          (tabDepth + 1) numColors

/-- `decorateOuterFrames` for a run starting at document offset `start`. -/
def decorateOuterFrames (ws : List Char) (tabSize start numColors : Nat) :
    List (Nat × Nat × Nat) :=
  decorateOuterFramesFuel ws.length ws tabSize start 0 numColors

/-- `text.indexOf(c, start)` as used by `decorateInnerFrame`: the first
offset ≥ `start` holding `c`, if any. -/
def indexOfFrom (text : List Char) (c : Char) (start : Nat) : Option Nat :=
  match (text.drop start).findIdx? (fun x => x = c) with
  | some j => some (start + j)
  | none => none

/-- `decorateInnerFrame`: with `tabDepth = ⌊visualLength / tabSize⌋`, emit
nothing at depth 0, otherwise one range from the end of the run to the next
newline (or end of document), in color group `(tabDepth - 1) % numColors`,
carrying an after-filler of width `longestLineLength - lineLength`. -/
def decorateInnerFrame (text ws : List Char)
    (matchStart tabSize lineLength longestLineLength numColors : Nat) :
    List InnerDec :=
  let tabDepth := getWhitespaceLengthInSpaces ws tabSize / tabSize
  if tabDepth = 0 then []
  else
    let matchEndIndex := matchStart + ws.length
    let endlineIndex :=
      match indexOfFrom text '\n' matchEndIndex with
      | some j => j
      | none => text.length
    [⟨(tabDepth - 1) % numColors, matchEndIndex, endlineIndex,
      (longestLineLength : Int) - (lineLength : Int)⟩]

/-- `LineDecorationContext.decorate`: unless errors are skipped for the line,
run `decorateTabmix` and — only when it found nothing, because the source
combines the two calls with the short-circuiting `||` operator —
`decorateError`; frames are decorated only when no error was found. -/
def decorate (r : RunInput) : RunDecorations :=
  if r.skipErrors then
    { outerFrame := decorateOuterFrames r.ws r.tabSize r.matchStart r.numColors
      innerFrame := decorateInnerFrame r.text r.ws r.matchStart r.tabSize
        r.lineLength r.longestLineLength r.numColors
      errorDecs := []
      tabmix := [] }
  else
    let tm := decorateTabmix r.ws r.indentInSpaces r.matchStart
    if tm.2 then
      { outerFrame := [], innerFrame := [], errorDecs := [], tabmix := tm.1 }
    else
      let er := decorateError r.ws r.tabSize r.matchStart
      if er.2 then
        { outerFrame := [], innerFrame := [], errorDecs := er.1, tabmix := tm.1 }
      else
        { outerFrame :=
            decorateOuterFrames r.ws r.tabSize r.matchStart r.numColors
          innerFrame := decorateInnerFrame r.text r.ws r.matchStart r.tabSize
            r.lineLength r.longestLineLength r.numColors
          errorDecs := er.1
          tabmix := tm.1 }

/-! ### Configuration loader (config source, `getConfig`) -/

/-- The default color list of `getConfig`. -/
def defaultColors : List String :=
  ["hsla(312, 70%, 50%, 0.2)",
   "hsla(250, 70%, 50%, 0.2)",
   "hsla(191, 70%, 50%, 0.2)",
   "hsla(20, 70%, 50%, 0.2)"]

/-- The `colors` field of `getConfig`: `userConfig['colors'] || default`.
JavaScript `||` falls back only on a falsy left operand; a stored array is
truthy even when empty, so a present value — modelled as `some` — is kept
unchanged and only an absent value falls back to the default list. -/
def configColors : Option (List String) → List String
  | some cs => cs
  | none => defaultColors

/-! ### Suppression-line scan (`buildIgnoreErrorsOnLinesRegExps`,
`getLinesMatchingRegExps`)

The source compiles each configured ignore pattern into a JavaScript
`RegExp` and repeatedly calls `pattern.exec(text)` in a `while` loop,
collecting the line number of each match.  A JavaScript regular expression
object is modelled by its match function together with its `global` flag;
per the ECMAScript `RegExp.prototype.exec` contract, a global regexp
searches from its mutable `lastIndex` and advances it past the match, while
a non-global regexp always searches from offset 0 and leaves `lastIndex`
untouched. -/

/-- A compiled JavaScript regular expression: `firstMatchFrom text i` is the
first match at offset ≥ `i`, as `(matchIndex, matchLength)`. -/
structure JSRegExp where
  firstMatchFrom : List Char → Nat → Option (Nat × Nat)
  global : Bool

/-- `RegExp.prototype.exec` on `text` with the regexp's current `lastIndex`:
returns the match (if any) and the updated `lastIndex`. -/
def jsExec (re : JSRegExp) (text : List Char) (lastIndex : Nat) :
    Option ((Nat × Nat) × Nat) :=
  if re.global then
    match re.firstMatchFrom text lastIndex with
    | some m => some (m, m.1 + m.2)
    | none => none
  else
    match re.firstMatchFrom text 0 with
    | some m => some (m, lastIndex)
    | none => none

/-- `document.positionAt(i).line`: the number of newlines before offset `i`. -/
def lineOfOffset (text : List Char) (i : Nat) : Nat :=
  (text.take i).count '\n'

/-- The flag characters accepted by the delimiter-parsing regex
`^\/(.*?)\/([gim]*)$` of `buildIgnoreErrorsOnLinesRegExps`. -/
def isGimFlag (c : Char) : Bool :=
  c = 'g' || c = 'i' || c = 'm'

/-- Backtracking of the lazy group in `^\/(.*?)\/([gim]*)$` after the leading
slash: the shortest body such that the character after it is `/` and
everything after that consists of `g`/`i`/`m` flags.  `acc` holds the body
read so far, in reverse. -/
def parseBody : List Char → List Char → Option (List Char × List Char)
  | [], _ => none
  | c :: rest, acc =>
    if c = '/' && rest.all isGimFlag then some (acc.reverse, rest)
    else parseBody rest (c :: acc)

/-- `buildIgnoreErrorsOnLinesRegExps`, per pattern: a string matching
`^\/(.*?)\/([gim]*)$` yields `new RegExp(body, flags)`; anything else yields
`new RegExp(pattern)` — with no flags, hence non-global.  The result is the
`(source, flags)` pair of the constructed regexp. -/
def buildIgnoreErrorsOnLinesRegExp (pattern : List Char) :
    List Char × List Char :=
  match pattern with
  | '/' :: rest =>
    match parseBody rest [] with
    | some (body, flags) => (body, flags)
    | none => (pattern, [])
  | _ => (pattern, [])

/-- First literal occurrence of `pat` in `text` at offset ≥ `start`. -/
def literalFirstMatchFrom (pat text : List Char) (start : Nat) :
    Option (Nat × Nat) :=
  match ((List.range (text.length + 1)).filter
      (fun i => decide (start ≤ i) && pat.isPrefixOf (text.drop i))).head? with
  | some i => some (i, pat.length)
  | none => none

/-- `new RegExp(source, flags)` for a source string free of regular
expression metacharacters: it matches its source as a literal substring, and
is global exactly when the flags contain `g`. -/
def compileLiteralRegExp (srcFlags : List Char × List Char) : JSRegExp :=
  ⟨literalFirstMatchFrom srcFlags.1, srcFlags.2.contains 'g'⟩

/-- The `while ((match = pattern.exec(text)))` loop of
`getLinesMatchingRegExps` for one regexp, recording the line number of each
match's start position.  `fuel` bounds the number of iterations: a result of
`none` means the loop has not terminated within `fuel` iterations (for any
fuel, if that holds universally, the loop diverges). -/
def execCollectLines (re : JSRegExp) (text : List Char) :
    Nat → Nat → List Nat → Option (List Nat)
  | 0, _, _ => none
  | fuel + 1, lastIndex, acc =>
    match jsExec re text lastIndex with
    | none => some acc
    | some (m, newLast) =>
      execCollectLines re text fuel newLast (acc ++ [lineOfOffset text m.1])

/-- `getLinesMatchingRegExps`: run the exec loop of every regexp in turn,
accumulating matched line numbers (the source inserts them into a `Set`;
the list below records the same insertions in order). -/
def getLinesMatchingRegExps (regExps : List JSRegExp) (text : List Char)
    (fuel : Nat) : Option (List Nat) :=
  regExps.foldl
    (fun acc re =>
      match acc with
      | none => none
      | some lines => execCollectLines re text fuel 0 lines)
    (some [])

/-! ### Helper lemmas about the tabmix and width-error classifiers -/

lemma tabmixRangesAux_ne_nil (u : Char) (hover : String) :
    ∀ (l : List Char) (i : Nat), u ∈ l → tabmixRangesAux l u i hover ≠ [] := by
  intro l
  induction l with
  | nil => intro i h; cases h
  | cons c rest ih =>
    intro i h
    by_cases hc : c = u
    · simp [tabmixRangesAux, hc]
    · have hrest : u ∈ rest := by
        rcases List.mem_cons.mp h with h1 | h1
        · exact absurd h1.symm hc
        · exact h1
      simp only [tabmixRangesAux, if_neg hc]
      exact ih (i + 1) hrest

lemma tabmixRangesAux_eq (u : Char) (hover : String) :
    ∀ (l : List Char) (i : Nat),
      tabmixRangesAux l u i hover =
        ((List.range l.length).filter (fun j => l[j]? == some u)).map
          (fun j => ⟨i + j, i + j + 1, hover⟩) := by
  intro l
  induction l with
  | nil => intro i; rfl
  | cons c rest ih =>
    intro i
    have hp : ((fun j => (c :: rest)[j]? == some u) ∘ Nat.succ) =
        (fun j => rest[j]? == some u) := by
      funext j
      simp
    have hmap :
        ((List.map Nat.succ (List.range rest.length)).filter
            (fun j => (c :: rest)[j]? == some u)).map
          (fun j => (⟨i + j, i + j + 1, hover⟩ : TabmixDec)) =
        tabmixRangesAux rest u (i + 1) hover := by
      rw [List.filter_map, hp, List.map_map, ih (i + 1)]
      apply List.map_congr_left
      intro j hj
      have h1 : i + (j + 1) = i + 1 + j := by omega
      simp [Nat.succ_eq_add_one, h1]
    rw [List.length_cons, List.range_succ_eq_map, List.filter_cons]
    by_cases hc : c = u
    · subst hc
      rw [show tabmixRangesAux (c :: rest) c i hover =
            (⟨i, i + 1, hover⟩ : TabmixDec) ::
              tabmixRangesAux rest c (i + 1) hover from by
          simp [tabmixRangesAux]]
      have h0 : ((c :: rest)[0]? == some c) = true := by simp
      simp only [h0, if_true, List.map_cons]
      exact List.cons_eq_cons.mpr ⟨by simp, hmap.symm⟩
    · rw [show tabmixRangesAux (c :: rest) u i hover =
            tabmixRangesAux rest u (i + 1) hover from by
          simp [tabmixRangesAux, hc]]
      have h0 : ((c :: rest)[0]? == some u) = false := by simp [hc]
      simp only [h0, Bool.false_eq_true, if_false]
      exact hmap.symm

lemma decorateTabmix_snd (ws : List Char) (b : Bool) (base : Nat) :
    (decorateTabmix ws b base).2 = ws.contains (unexpectedChar b) := by
  by_cases h : unexpectedChar b ∈ ws <;> simp [decorateTabmix, h]

lemma decorateTabmix_fst_of_not_contains (ws : List Char) (b : Bool) (base : Nat)
    (h : ws.contains (unexpectedChar b) = false) :
    (decorateTabmix ws b base).1 = [] := by
  have h' : unexpectedChar b ∉ ws := by
    simpa using h
  simp [decorateTabmix, h']

lemma decorateTabmix_fst_ne_nil (ws : List Char) (b : Bool) (base : Nat)
    (h : ws.contains (unexpectedChar b) = true) :
    (decorateTabmix ws b base).1 ≠ [] := by
  have h' : unexpectedChar b ∈ ws := by
    simpa using h
  have heq : decorateTabmix ws b base =
      (tabmixRangesAux ws (unexpectedChar b) base (tabmixHoverMessage b),
       true) := by
    simp [decorateTabmix, h']
  rw [heq]
  exact tabmixRangesAux_ne_nil _ _ ws base h'

lemma decorateError_of_misaligned (ws : List Char) (tabSize base : Nat)
    (h : getWhitespaceLengthInSpaces ws tabSize % tabSize ≠ 0) :
    decorateError ws tabSize base =
      ([⟨base, base + ws.length,
        errorHoverMessage (getWhitespaceLengthInSpaces ws tabSize) tabSize⟩],
       true) := by
  simp [decorateError, h]

lemma decorateError_of_aligned (ws : List Char) (tabSize base : Nat)
    (h : getWhitespaceLengthInSpaces ws tabSize % tabSize = 0) :
    decorateError ws tabSize base = ([], false) := by
  simp [decorateError, h]

/-- Unfolding of `decorate` when errors are not skipped and the run contains
the unexpected character. -/
lemma decorate_of_tabmix (r : RunInput) (hskip : r.skipErrors = false)
    (hmix : r.ws.contains (unexpectedChar r.indentInSpaces) = true) :
    decorate r =
      { outerFrame := [], innerFrame := [], errorDecs := [],
        tabmix := (decorateTabmix r.ws r.indentInSpaces r.matchStart).1 } := by
  have h2 := decorateTabmix_snd r.ws r.indentInSpaces r.matchStart
  rw [hmix] at h2
  simp [decorate, hskip, h2]

/-- Unfolding of `decorate` when errors are not skipped, no tabmix was found,
and the run's visual length is misaligned. -/
lemma decorate_of_width_error (r : RunInput) (hskip : r.skipErrors = false)
    (hmix : r.ws.contains (unexpectedChar r.indentInSpaces) = false)
    (herr : getWhitespaceLengthInSpaces r.ws r.tabSize % r.tabSize ≠ 0) :
    decorate r =
      { outerFrame := [], innerFrame := [],
        errorDecs := [⟨r.matchStart, r.matchStart + r.ws.length,
          errorHoverMessage (getWhitespaceLengthInSpaces r.ws r.tabSize)
            r.tabSize⟩],
        tabmix := [] } := by
  have h2 := decorateTabmix_snd r.ws r.indentInSpaces r.matchStart
  rw [hmix] at h2
  have h1 := decorateTabmix_fst_of_not_contains r.ws r.indentInSpaces
    r.matchStart hmix
  have he := decorateError_of_misaligned r.ws r.tabSize r.matchStart herr
  simp [decorate, hskip, h2, h1, he]

/-- Unfolding of `decorate` when errors are not skipped and no error is
found: frames are decorated. -/
lemma decorate_of_no_error (r : RunInput) (hskip : r.skipErrors = false)
    (hmix : r.ws.contains (unexpectedChar r.indentInSpaces) = false)
    (herr : getWhitespaceLengthInSpaces r.ws r.tabSize % r.tabSize = 0) :
    decorate r =
      { outerFrame := decorateOuterFrames r.ws r.tabSize r.matchStart r.numColors
        innerFrame := decorateInnerFrame r.text r.ws r.matchStart r.tabSize
          r.lineLength r.longestLineLength r.numColors
        errorDecs := []
        tabmix := [] } := by
  have h2 := decorateTabmix_snd r.ws r.indentInSpaces r.matchStart
  rw [hmix] at h2
  have h1 := decorateTabmix_fst_of_not_contains r.ws r.indentInSpaces
    r.matchStart hmix
  have he := decorateError_of_aligned r.ws r.tabSize r.matchStart herr
  simp [decorate, hskip, h2, h1, he]

/-- Unfolding of `decorate` when errors are skipped for the line. -/
lemma decorate_of_skip (r : RunInput) (hskip : r.skipErrors = true) :
    decorate r =
      { outerFrame := decorateOuterFrames r.ws r.tabSize r.matchStart r.numColors
        innerFrame := decorateInnerFrame r.text r.ws r.matchStart r.tabSize
          r.lineLength r.longestLineLength r.numColors
        errorDecs := []
        tabmix := [] } := by
  simp [decorate, hskip]

/-! ### Depth-partition lemmas -/

/-- The covering invariant of a segment list (spec §3): starting at `a`, each
segment starts where the previous one ended and is non-empty, depth indices
count up from `d`, and the last segment ends exactly at `b`. -/
def segmentsCoverB : List DepthSegment → Nat → Nat → Nat → Bool
  | [], a, b, _ => a == b
  | s :: rest, a, b, d =>
    (s.start == a) && decide (a < s.stop) && (s.depth == d) &&
      segmentsCoverB rest s.stop b (d + 1)

lemma segmentsCoverB_fuel (tabSize : Nat) (ht : 1 ≤ tabSize) :
    ∀ (fuel : Nat) (rest : List Char) (i d : Nat), rest.length ≤ fuel →
      segmentsCoverB (depthSegmentsFuel fuel rest tabSize i d) i
        (i + rest.length) d = true := by
  intro fuel
  induction fuel with
  | zero =>
    intro rest i d hlen
    have hnil : rest = [] := List.length_eq_zero.mp (Nat.le_zero.mp hlen)
    subst hnil
    simp [depthSegmentsFuel, segmentsCoverB]
  | succ fuel ih =>
    intro rest i d hlen
    cases rest with
    | nil => simp [depthSegmentsFuel, segmentsCoverB]
    | cons c rest' =>
      have hw1 : 1 ≤ (if c = '\t' then 1 else min tabSize (rest'.length + 1)) := by
        split
        · exact le_refl 1
        · exact le_min ht (Nat.succ_le_succ (Nat.zero_le _))
      have hwle : (if c = '\t' then 1 else min tabSize (rest'.length + 1)) ≤
          rest'.length + 1 := by
        split
        · omega
        · exact min_le_right _ _
      set w := (if c = '\t' then 1 else min tabSize (rest'.length + 1))
        with hwdef
      have hdrop : (rest'.drop (w - 1)).length = rest'.length - (w - 1) :=
        List.length_drop _ _
      have hfuel : (rest'.drop (w - 1)).length ≤ fuel := by
        rw [hdrop]
        simp only [List.length_cons] at hlen
        omega
      have htail := ih (rest'.drop (w - 1)) (i + w) (d + 1) hfuel
      have hend : (i + w) + (rest'.drop (w - 1)).length =
          i + (rest'.length + 1) := by
        rw [hdrop]
        omega
      rw [hend] at htail
      simp only [depthSegmentsFuel, ← hwdef, List.length_cons, segmentsCoverB]
      simp [htail, Nat.lt_add_of_pos_right hw1]

/-- The emission of `decorateOuterFrames` in terms of the depth partition:
one range per segment of depth ≥ 1, covering exactly that segment, in color
group `(depth - 1) % numColors`; depth-0 segments emit nothing. -/
lemma outerFramesFuel_eq_filterMap (tabSize numColors : Nat) :
    ∀ (fuel : Nat) (rest : List Char) (i d : Nat),
      decorateOuterFramesFuel fuel rest tabSize i d numColors =
        (depthSegmentsFuel fuel rest tabSize i d).filterMap
          (fun s => if 1 ≤ s.depth then
            some ((s.depth - 1) % numColors, s.start, s.stop) else none) := by
  intro fuel
  induction fuel with
  | zero => intro rest i d; rfl
  | succ fuel ih =>
    intro rest i d
    cases rest with
    | nil => rfl
    | cons c rest' =>
      set w := (if c = '\t' then 1 else min tabSize (rest'.length + 1))
        with hwdef
      cases d with
      | zero =>
        simp only [depthSegmentsFuel, decorateOuterFramesFuel, ← hwdef,
          if_pos rfl, List.filterMap_cons]
        simp only [Nat.le_zero, ite_false, Nat.lt_irrefl]
        rw [ih]
        simp
      | succ d' =>
        simp only [depthSegmentsFuel, decorateOuterFramesFuel, ← hwdef,
          List.filterMap_cons]
        rw [if_neg (Nat.succ_ne_zero d')]
        simp only [Nat.le_add_left 1 d', if_pos]
        rw [ih]

/-- The per-segment shape invariant of the partition: every segment of
`depthSegmentsFuel` lies inside `[i, i + rest.length)`, and is one character
wide when it starts at a tab, `min tabSize remaining` characters wide
otherwise. -/
lemma depthSegmentsFuel_shape (tabSize : Nat) (ht : 1 ≤ tabSize) :
    ∀ (fuel : Nat) (rest : List Char) (i d : Nat), rest.length ≤ fuel →
      ∀ s ∈ depthSegmentsFuel fuel rest tabSize i d,
        i ≤ s.start ∧ s.stop ≤ i + rest.length ∧
        ((rest[s.start - i]? = some '\t' ∧ s.stop = s.start + 1) ∨
         (rest[s.start - i]? ≠ some '\t' ∧
           s.stop = s.start + min tabSize (i + rest.length - s.start))) := by
  intro fuel
  induction fuel with
  | zero =>
    intro rest i d hlen s hs
    have hnil : rest = [] := List.length_eq_zero.mp (Nat.le_zero.mp hlen)
    subst hnil
    cases hs
  | succ fuel ih =>
    intro rest i d hlen s hs
    cases rest with
    | nil => cases hs
    | cons c rest' =>
      have hw1 : 1 ≤ (if c = '\t' then 1 else min tabSize (rest'.length + 1)) := by
        split
        · exact le_refl 1
        · exact le_min ht (Nat.succ_le_succ (Nat.zero_le _))
      have hwle : (if c = '\t' then 1 else min tabSize (rest'.length + 1)) ≤
          rest'.length + 1 := by
        split
        · omega
        · exact min_le_right _ _
      set w := (if c = '\t' then 1 else min tabSize (rest'.length + 1))
        with hwdef
      simp only [depthSegmentsFuel, ← hwdef, List.mem_cons] at hs
      rcases hs with hs | hs
      · subst hs
        refine ⟨le_refl i, ?_, ?_⟩
        · simp only [List.length_cons]
          omega
        · by_cases hc : c = '\t'
          · left
            constructor
            · simp [Nat.sub_self, hc]
            · have : w = 1 := by
                rw [hwdef, if_pos hc]
              simp [this]
          · right
            constructor
            · simp [Nat.sub_self, hc]
            · have hwv : w = min tabSize (rest'.length + 1) := by
                rw [hwdef, if_neg hc]
              simp only [List.length_cons, Nat.sub_self]
              rw [hwv]
              congr 1
              omega
      · have hdrop : (rest'.drop (w - 1)).length = rest'.length - (w - 1) :=
          List.length_drop _ _
        have hfuel : (rest'.drop (w - 1)).length ≤ fuel := by
          rw [hdrop]
          simp only [List.length_cons] at hlen
          omega
        obtain ⟨h1, h2, h3⟩ := ih (rest'.drop (w - 1)) (i + w) (d + 1) hfuel s hs
        have hdropw : rest'.drop (w - 1) = (c :: rest').drop w := by
          conv_rhs => rw [show w = (w - 1) + 1 from by omega]
          rw [List.drop_succ_cons]
        refine ⟨by omega, ?_, ?_⟩
        · simp only [List.length_cons]
          rw [hdrop] at h2
          omega
        · have hget : (rest'.drop (w - 1))[s.start - (i + w)]? =
              (c :: rest')[s.start - i]? := by
            rw [hdropw, List.getElem?_drop]
            congr 1
            omega
          have hlen2 : (i + w) + (rest'.drop (w - 1)).length =
              i + (c :: rest').length := by
            simp only [List.length_cons]
            rw [hdrop]
            omega
          rw [hget, hlen2] at h3
          exact h3

/-! ### Divergence of the exec loop for non-global regexps -/

/-- A non-global regexp that matches somewhere makes the
`while (exec(text))` loop of `getLinesMatchingRegExps` run forever:
`exec` keeps returning the first match without advancing `lastIndex`. -/
lemma execCollectLines_diverges (re : JSRegExp) (text : List Char)
    (hglob : re.global = false)
    (m : Nat × Nat) (hm : re.firstMatchFrom text 0 = some m) :
    ∀ (fuel lastIndex : Nat) (acc : List Nat),
      execCollectLines re text fuel lastIndex acc = none := by
  intro fuel
  induction fuel with
  | zero => intro lastIndex acc; rfl
  | succ fuel ih =>
    intro lastIndex acc
    have hexec : jsExec re text lastIndex = some (m, lastIndex) := by
      simp [jsExec, hglob, hm]
    simp only [execCollectLines, hexec]
    exact ih lastIndex _

/-! ### Claims -/

/-- C1: for every whitespace run processed with error detection active
(errors not skipped for the line), if a tabmix error or a width error is
raised for that run — the run contains the unexpected indentation character,
or its visual length is not a multiple of the tab size — then no outer-frame
range and no inner-frame range is emitted for that line in that pass; frame
decoration happens only when no error was raised. -/
theorem c1_error_frame_exclusivity (r : RunInput)
    (hskip : r.skipErrors = false)
    (herr : r.ws.contains (unexpectedChar r.indentInSpaces) = true ∨
      getWhitespaceLengthInSpaces r.ws r.tabSize % r.tabSize ≠ 0) :
    (decorate r).outerFrame = [] ∧ (decorate r).innerFrame = [] := by
  by_cases hmix : r.ws.contains (unexpectedChar r.indentInSpaces) = true
  · rw [decorate_of_tabmix r hskip hmix]
    exact ⟨rfl, rfl⟩
  · have hmix' : r.ws.contains (unexpectedChar r.indentInSpaces) = false := by
      simpa using hmix
    rcases herr with h | h
    · exact absurd h hmix
    · rw [decorate_of_width_error r hskip hmix' h]
      exact ⟨rfl, rfl⟩

/-- Concrete run for the C1 witness: a mixed tab-space run in a
space-indented editor, errors active. -/
def c1In : RunInput :=
  { text := "\t foo".toList, ws := ['\t', ' '], matchStart := 0,
    lineLength := 5, longestLineLength := 5, tabSize := 4, numColors := 4,
    indentInSpaces := true, skipErrors := false }

/-- Witness for C1 at the concrete run `c1In`. -/
theorem c1_error_frame_exclusivity_witness :
    c1In.skipErrors = false ∧
    (c1In.ws.contains (unexpectedChar c1In.indentInSpaces) = true ∨
      getWhitespaceLengthInSpaces c1In.ws c1In.tabSize % c1In.tabSize ≠ 0) ∧
    ((decorate c1In).outerFrame = [] ∧ (decorate c1In).innerFrame = []) :=
  ⟨rfl, Or.inl (by decide),
    c1_error_frame_exclusivity c1In rfl (Or.inl (by decide))⟩

/-- Concrete run refuting C2: tab-then-space with tab size 4 in a
space-indented editor.  Its visual length 5 is not a multiple of 4, yet the
short-circuiting `||` in `decorate` skips `decorateError` once
`decorateTabmix` has reported an error. -/
def c2In : RunInput :=
  { text := "\t bar".toList, ws := ['\t', ' '], matchStart := 0,
    lineLength := 5, longestLineLength := 5, tabSize := 4, numColors := 4,
    indentInSpaces := true, skipErrors := false }

/-- C2 counterexample: on `c2In` the width-error condition holds and a
tabmix error is raised, but no width-error range is emitted in the pass. -/
theorem c2_counterexample :
    c2In.skipErrors = false ∧
    getWhitespaceLengthInSpaces c2In.ws c2In.tabSize % c2In.tabSize ≠ 0 ∧
    (decorate c2In).tabmix ≠ [] ∧
    (decorate c2In).errorDecs = [] := by decide

/-- C2 as amended: for a non-suppressed run, when a tabmix error is raised
the width error is not computed at all (`decorateTabmix() ||
decorateError()` short-circuits), so no width-error range is emitted; the
width error is computed — and raised exactly when the visual length is
misaligned — only when no tabmix error was raised. -/
theorem c2_amended_width_error_short_circuited (r : RunInput)
    (hskip : r.skipErrors = false) :
    ((decorate r).tabmix ≠ [] → (decorate r).errorDecs = []) ∧
    ((decorate r).tabmix = [] →
      ((decorate r).errorDecs ≠ [] ↔
        getWhitespaceLengthInSpaces r.ws r.tabSize % r.tabSize ≠ 0)) := by
  by_cases hmix : r.ws.contains (unexpectedChar r.indentInSpaces) = true
  · rw [decorate_of_tabmix r hskip hmix]
    refine ⟨fun _ => rfl, fun hnil => ?_⟩
    exact absurd hnil (decorateTabmix_fst_ne_nil _ _ _ hmix)
  · have hmix' : r.ws.contains (unexpectedChar r.indentInSpaces) = false := by
      simpa using hmix
    by_cases herr : getWhitespaceLengthInSpaces r.ws r.tabSize % r.tabSize = 0
    · rw [decorate_of_no_error r hskip hmix' herr]
      refine ⟨fun _ => rfl, fun _ => ?_⟩
      constructor
      · intro h
        exact absurd rfl h
      · intro h
        exact absurd herr h
    · rw [decorate_of_width_error r hskip hmix' herr]
      refine ⟨fun h => absurd rfl h, fun _ => ?_⟩
      constructor
      · intro _
        exact herr
      · intro _
        simp

/-- Witness for the amended C2 at the concrete run `c2In`. -/
theorem c2_amended_witness :
    c2In.skipErrors = false ∧
    (((decorate c2In).tabmix ≠ [] → (decorate c2In).errorDecs = []) ∧
     ((decorate c2In).tabmix = [] →
       ((decorate c2In).errorDecs ≠ [] ↔
         getWhitespaceLengthInSpaces c2In.ws c2In.tabSize % c2In.tabSize ≠ 0))) :=
  ⟨rfl, c2_amended_width_error_short_circuited c2In rfl⟩

/-- C3: the depth segments of a whitespace run are contiguous,
non-overlapping and cover the run exactly — segment 0 starts at the run's
start offset, each segment starts where the previous one ends and is
non-empty, depth indices count 0, 1, 2, …, and the last segment ends exactly
at the run's end. -/
theorem c3_segments_cover (ws : List Char) (tabSize start : Nat)
    (ht : 1 ≤ tabSize) :
    segmentsCoverB (depthSegments ws tabSize start) start
      (start + ws.length) 0 = true :=
  segmentsCoverB_fuel tabSize ht ws.length ws start 0 (le_refl _)

/-- Witness for C3 on a mixed run with tab size 2. -/
theorem c3_segments_cover_witness :
    1 ≤ 2 ∧
    segmentsCoverB (depthSegments ("\t  \t ".toList) 2 7) 7
      (7 + ("\t  \t ".toList).length) 0 = true :=
  ⟨by decide, c3_segments_cover ("\t  \t ".toList) 2 7 (by decide)⟩

/-- When no tabmix and no width-error decoration was pushed for the run,
`decorate` reached the frame-decoration branch. -/
lemma decorate_frames_of_no_error (r : RunInput)
    (hNoErr : (decorate r).tabmix = [] ∧ (decorate r).errorDecs = []) :
    (decorate r).outerFrame =
      decorateOuterFrames r.ws r.tabSize r.matchStart r.numColors ∧
    (decorate r).innerFrame =
      decorateInnerFrame r.text r.ws r.matchStart r.tabSize r.lineLength
        r.longestLineLength r.numColors := by
  by_cases hskip : r.skipErrors = true
  · rw [decorate_of_skip r hskip]
    exact ⟨rfl, rfl⟩
  · have hskip' : r.skipErrors = false := by simpa using hskip
    by_cases hmix : r.ws.contains (unexpectedChar r.indentInSpaces) = true
    · exfalso
      rw [decorate_of_tabmix r hskip' hmix] at hNoErr
      exact decorateTabmix_fst_ne_nil _ _ _ hmix hNoErr.1
    · have hmix' : r.ws.contains (unexpectedChar r.indentInSpaces) = false := by
        simpa using hmix
      by_cases herr :
          getWhitespaceLengthInSpaces r.ws r.tabSize % r.tabSize = 0
      · rw [decorate_of_no_error r hskip' hmix' herr]
        exact ⟨rfl, rfl⟩
      · exfalso
        rw [decorate_of_width_error r hskip' hmix' herr] at hNoErr
        simpa using hNoErr.2

/-- C4: for a whitespace run with no error raised, with
`tabDepth = ⌊visualLength / tabSize⌋`: at depth 0 no inner-frame range is
emitted; otherwise exactly one inner-frame range is emitted, spanning from
the end of the run to the end of the line (the next newline offset, or the
end of the document when there is none), in color group
`(tabDepth - 1) % numColors`, carrying a filler whose width is the
document's longest line length minus this line's length. -/
theorem c4_inner_frame_emission (r : RunInput)
    (hNoErr : (decorate r).tabmix = [] ∧ (decorate r).errorDecs = []) :
    (getWhitespaceLengthInSpaces r.ws r.tabSize / r.tabSize = 0 →
      (decorate r).innerFrame = []) ∧
    (1 ≤ getWhitespaceLengthInSpaces r.ws r.tabSize / r.tabSize →
      (decorate r).innerFrame =
        [⟨(getWhitespaceLengthInSpaces r.ws r.tabSize / r.tabSize - 1) %
            r.numColors,
          r.matchStart + r.ws.length,
          (match indexOfFrom r.text '\n' (r.matchStart + r.ws.length) with
           | some j => j
           | none => r.text.length),
          (r.longestLineLength : Int) - (r.lineLength : Int)⟩]) := by
  rw [(decorate_frames_of_no_error r hNoErr).2]
  constructor
  · intro h0
    simp [decorateInnerFrame, h0]
  · intro h1
    have h0 : ¬ getWhitespaceLengthInSpaces r.ws r.tabSize / r.tabSize = 0 := by
      omega
    simp [decorateInnerFrame, h0]

/-- Concrete run for the C4 witness: one tab, tab size 4, followed by `foo`
and a second line. -/
def c4In : RunInput :=
  { text := "\tfoo\nx".toList, ws := ['\t'], matchStart := 0, lineLength := 4,
    longestLineLength := 4, tabSize := 4, numColors := 4,
    indentInSpaces := false, skipErrors := false }

/-- Witness for C4 at the concrete run `c4In`. -/
theorem c4_inner_frame_emission_witness :
    ((decorate c4In).tabmix = [] ∧ (decorate c4In).errorDecs = []) ∧
    ((getWhitespaceLengthInSpaces c4In.ws c4In.tabSize / c4In.tabSize = 0 →
       (decorate c4In).innerFrame = []) ∧
     (1 ≤ getWhitespaceLengthInSpaces c4In.ws c4In.tabSize / c4In.tabSize →
       (decorate c4In).innerFrame =
         [⟨(getWhitespaceLengthInSpaces c4In.ws c4In.tabSize / c4In.tabSize
              - 1) % c4In.numColors,
           c4In.matchStart + c4In.ws.length,
           (match indexOfFrom c4In.text '\n'
               (c4In.matchStart + c4In.ws.length) with
            | some j => j
            | none => c4In.text.length),
           (c4In.longestLineLength : Int) - (c4In.lineLength : Int)⟩])) :=
  ⟨by decide, c4_inner_frame_emission c4In (by decide)⟩

/-- `decorateOuterFrames` in terms of the depth partition, at the top-level
entry points. -/
lemma decorateOuterFrames_eq_filterMap (ws : List Char)
    (tabSize start numColors : Nat) :
    decorateOuterFrames ws tabSize start numColors =
      (depthSegments ws tabSize start).filterMap
        (fun s => if 1 ≤ s.depth then
          some ((s.depth - 1) % numColors, s.start, s.stop) else none) :=
  outerFramesFuel_eq_filterMap tabSize numColors ws.length ws start 0

/-- C5: `decorateOuterFrames` emits exactly one range per depth segment of
depth ≥ 1, covering exactly that segment, in color group
`(depth - 1) % numColors`; the depth-0 segment emits no range. -/
theorem c5_outer_frames_from_segments (ws : List Char)
    (tabSize start numColors : Nat) :
    decorateOuterFrames ws tabSize start numColors =
      (depthSegments ws tabSize start).filterMap
        (fun s => if 1 ≤ s.depth then
          some ((s.depth - 1) % numColors, s.start, s.stop) else none) :=
  decorateOuterFrames_eq_filterMap ws tabSize start numColors

/-- The segment shape asserted by C6: the segment's content is exactly one
literal tab, or a block of at most `tabSize` space characters. -/
def claimedSegmentShape (ws : List Char) (tabSize : Nat)
    (s : DepthSegment) : Bool :=
  let content := (ws.drop s.start).take (s.stop - s.start)
  content == ['\t'] ||
    (content.all (fun c => c == ' ') && decide (content.length ≤ tabSize))

/-- Concrete run refuting C6: a space followed by two tabs with tab size 2,
on a line whose errors are suppressed, reaches depth partitioning, and its
first segment consumes the space *and* the following tab — it is neither a
single tab nor a block of spaces. -/
def c6In : RunInput :=
  { text := " \t\tx".toList, ws := [' ', '\t', '\t'], matchStart := 0,
    lineLength := 4, longestLineLength := 4, tabSize := 2, numColors := 4,
    indentInSpaces := true, skipErrors := true }

/-- C6 counterexample: the run of `c6In` reaches depth partitioning (an
outer-frame range is emitted for it), yet not every depth segment is a
single tab or a block of spaces. -/
theorem c6_counterexample :
    (decorate c6In).outerFrame ≠ [] ∧
    ¬ (∀ s ∈ depthSegments c6In.ws c6In.tabSize 0,
        claimedSegmentShape c6In.ws c6In.tabSize s = true) := by decide

/-- C6 as amended: the partitioner chooses by the character at the current
offset — a tab consumes exactly one character, any other character starts a
block of `min tabSize remaining` characters (clipped at the run's end; the
block consists of spaces whenever the run is all spaces, but may contain
tabs when a mixed run reaches partitioning through error suppression). -/
theorem c6_amended_segment_consumption (ws : List Char) (tabSize : Nat)
    (ht : 1 ≤ tabSize) :
    ∀ s ∈ depthSegments ws tabSize 0,
      s.stop ≤ ws.length ∧
      ((ws[s.start]? = some '\t' ∧ s.stop = s.start + 1) ∨
       (ws[s.start]? ≠ some '\t' ∧
         s.stop = s.start + min tabSize (ws.length - s.start))) := by
  intro s hs
  obtain ⟨h1, h2, h3⟩ := depthSegmentsFuel_shape tabSize ht ws.length ws 0 0
    (le_refl _) s hs
  refine ⟨by simpa using h2, ?_⟩
  simpa using h3

/-- Witness for the amended C6 on a mixed run with tab size 2. -/
theorem c6_amended_witness :
    1 ≤ 2 ∧
    ∀ s ∈ depthSegments (" \t\t  ".toList) 2 0,
      s.stop ≤ (" \t\t  ".toList).length ∧
      (((" \t\t  ".toList)[s.start]? = some '\t' ∧ s.stop = s.start + 1) ∨
       ((" \t\t  ".toList)[s.start]? ≠ some '\t' ∧
         s.stop = s.start + min 2 ((" \t\t  ".toList).length - s.start))) :=
  ⟨by decide, c6_amended_segment_consumption (" \t\t  ".toList) 2 (by decide)⟩

/-- Concrete run refuting C7: tab-then-space with tab size 2 in a
space-indented editor; the visual length 3 is misaligned, but the tabmix
error short-circuits `decorateError`, so no width error is raised. -/
def c7In : RunInput :=
  { text := "\t x".toList, ws := ['\t', ' '], matchStart := 0,
    lineLength := 3, longestLineLength := 3, tabSize := 2, numColors := 4,
    indentInSpaces := true, skipErrors := false }

/-- C7 counterexample: on the non-suppressed run of `c7In` the visual length
is not a multiple of the tab size, yet no width-error range is emitted —
the claimed "if and only if" fails in the "if" direction. -/
theorem c7_counterexample :
    c7In.skipErrors = false ∧
    getWhitespaceLengthInSpaces c7In.ws c7In.tabSize % c7In.tabSize ≠ 0 ∧
    (decorate c7In).errorDecs = [] := by decide

/-- C7 as amended: for a non-suppressed run *on which no tabmix error was
raised*, a width error is raised iff the visual length is not a multiple of
the tab size, and when raised it is exactly one range spanning the entire
run whose hover message reports the computed visual length and the tab
width. -/
theorem c7_amended_width_error_iff (r : RunInput)
    (hskip : r.skipErrors = false)
    (hmix : r.ws.contains (unexpectedChar r.indentInSpaces) = false) :
    ((decorate r).errorDecs ≠ [] ↔
      getWhitespaceLengthInSpaces r.ws r.tabSize % r.tabSize ≠ 0) ∧
    (getWhitespaceLengthInSpaces r.ws r.tabSize % r.tabSize ≠ 0 →
      (decorate r).errorDecs =
        [⟨r.matchStart, r.matchStart + r.ws.length,
          errorHoverMessage (getWhitespaceLengthInSpaces r.ws r.tabSize)
            r.tabSize⟩]) := by
  by_cases herr : getWhitespaceLengthInSpaces r.ws r.tabSize % r.tabSize = 0
  · rw [decorate_of_no_error r hskip hmix herr]
    exact ⟨⟨fun h => absurd rfl h, fun h => absurd herr h⟩,
      fun h => absurd herr h⟩
  · rw [decorate_of_width_error r hskip hmix herr]
    exact ⟨⟨fun _ => herr, fun _ => by simp⟩, fun _ => rfl⟩

/-- Concrete run for the amended C7 witness: three spaces with tab size 4,
space-indented editor, errors active. -/
def c7bIn : RunInput :=
  { text := "   y".toList, ws := [' ', ' ', ' '], matchStart := 0,
    lineLength := 4, longestLineLength := 4, tabSize := 4, numColors := 4,
    indentInSpaces := true, skipErrors := false }

/-- Witness for the amended C7 at the concrete run `c7bIn`. -/
theorem c7_amended_witness :
    c7bIn.skipErrors = false ∧
    c7bIn.ws.contains (unexpectedChar c7bIn.indentInSpaces) = false ∧
    (((decorate c7bIn).errorDecs ≠ [] ↔
       getWhitespaceLengthInSpaces c7bIn.ws c7bIn.tabSize % c7bIn.tabSize ≠ 0) ∧
     (getWhitespaceLengthInSpaces c7bIn.ws c7bIn.tabSize % c7bIn.tabSize ≠ 0 →
       (decorate c7bIn).errorDecs =
         [⟨c7bIn.matchStart, c7bIn.matchStart + c7bIn.ws.length,
           errorHoverMessage
             (getWhitespaceLengthInSpaces c7bIn.ws c7bIn.tabSize)
             c7bIn.tabSize⟩])) :=
  ⟨rfl, by decide, c7_amended_width_error_iff c7bIn rfl (by decide)⟩

/-- C8: for a non-suppressed run, a tabmix error is raised iff the run
contains the unexpected indentation character, and it produces exactly one
single-character range per occurrence of that character — in order, each
with the hover message naming the expected and unexpected styles — while
characters of the expected kind are never flagged. -/
theorem c8_tabmix_per_occurrence (r : RunInput)
    (hskip : r.skipErrors = false) :
    ((decorate r).tabmix ≠ [] ↔
      r.ws.contains (unexpectedChar r.indentInSpaces) = true) ∧
    (decorate r).tabmix =
      ((List.range r.ws.length).filter
          (fun j => r.ws[j]? == some (unexpectedChar r.indentInSpaces))).map
        (fun j => ⟨r.matchStart + j, r.matchStart + j + 1,
          tabmixHoverMessage r.indentInSpaces⟩) := by
  by_cases hmix : r.ws.contains (unexpectedChar r.indentInSpaces) = true
  · have h' : unexpectedChar r.indentInSpaces ∈ r.ws := by simpa using hmix
    have heq : (decorateTabmix r.ws r.indentInSpaces r.matchStart).1 =
        tabmixRangesAux r.ws (unexpectedChar r.indentInSpaces) r.matchStart
          (tabmixHoverMessage r.indentInSpaces) := by
      simp [decorateTabmix, h']
    rw [decorate_of_tabmix r hskip hmix]
    constructor
    · refine ⟨fun _ => hmix, fun _ => ?_⟩
      rw [heq]
      exact tabmixRangesAux_ne_nil _ _ r.ws r.matchStart h'
    · rw [heq, tabmixRangesAux_eq]
  · have hmix' : r.ws.contains (unexpectedChar r.indentInSpaces) = false := by
      simpa using hmix
    have hnot : unexpectedChar r.indentInSpaces ∉ r.ws := by simpa using hmix'
    have htmnil : (decorate r).tabmix = [] := by
      by_cases herr :
          getWhitespaceLengthInSpaces r.ws r.tabSize % r.tabSize = 0
      · rw [decorate_of_no_error r hskip hmix' herr]
      · rw [decorate_of_width_error r hskip hmix' herr]
    have hfilter : ((List.range r.ws.length).filter
        (fun j => r.ws[j]? == some (unexpectedChar r.indentInSpaces))) = [] := by
      refine List.filter_eq_nil_iff.mpr ?_
      intro j _
      intro hj
      have : unexpectedChar r.indentInSpaces ∈ r.ws := by
        have hj' : r.ws[j]? = some (unexpectedChar r.indentInSpaces) := by
          simpa using hj
        exact List.getElem?_mem hj'
      exact hnot this
    rw [htmnil, hfilter]
    constructor
    · exact ⟨fun h => absurd rfl h, fun h => absurd h hmix⟩
    · rfl

/-- Concrete run for the C8 witness: tab, space, tab in a space-indented
editor — occurrences of the unexpected tab at offsets 0 and 2. -/
def c8In : RunInput :=
  { text := "\t \tz".toList, ws := ['\t', ' ', '\t'], matchStart := 3,
    lineLength := 4, longestLineLength := 4, tabSize := 4, numColors := 4,
    indentInSpaces := true, skipErrors := false }

/-- Witness for C8 at the concrete run `c8In`. -/
theorem c8_tabmix_per_occurrence_witness :
    c8In.skipErrors = false ∧
    (((decorate c8In).tabmix ≠ [] ↔
       c8In.ws.contains (unexpectedChar c8In.indentInSpaces) = true) ∧
     (decorate c8In).tabmix =
       ((List.range c8In.ws.length).filter
           (fun j => c8In.ws[j]? == some (unexpectedChar c8In.indentInSpaces))).map
         (fun j => ⟨c8In.matchStart + j, c8In.matchStart + j + 1,
           tabmixHoverMessage c8In.indentInSpaces⟩)) :=
  ⟨rfl, c8_tabmix_per_occurrence c8In rfl⟩

/-- C9: the suppression-line scan does not always terminate.  For the bare
ignore pattern `foo` — compiled by `buildIgnoreErrorsOnLinesRegExps` into a
regexp without flags, hence non-global — on the document `foo`, the
`while (exec(text))` loop of `getLinesMatchingRegExps` returns the first
match forever: no iteration bound ever suffices. -/
theorem c9_suppression_scan_diverges :
    ∀ fuel : Nat,
      getLinesMatchingRegExps
        [compileLiteralRegExp (buildIgnoreErrorsOnLinesRegExp ("foo".toList))]
        ("foo".toList) fuel = none := by
  intro fuel
  have h1 : getLinesMatchingRegExps
      [compileLiteralRegExp (buildIgnoreErrorsOnLinesRegExp ("foo".toList))]
      ("foo".toList) fuel =
      execCollectLines
        (compileLiteralRegExp (buildIgnoreErrorsOnLinesRegExp ("foo".toList)))
        ("foo".toList) fuel 0 [] := rfl
  rw [h1]
  exact execCollectLines_diverges _ _ (by decide) (0, 3) (by decide) fuel 0 []

/-- Case analysis of the outer-frame output of `decorate`. -/
lemma decorate_outerFrame_cases (r : RunInput) :
    (decorate r).outerFrame = [] ∨
    (decorate r).outerFrame =
      decorateOuterFrames r.ws r.tabSize r.matchStart r.numColors := by
  by_cases hskip : r.skipErrors = true
  · right
    rw [decorate_of_skip r hskip]
  · have hskip' : r.skipErrors = false := by simpa using hskip
    by_cases hmix : r.ws.contains (unexpectedChar r.indentInSpaces) = true
    · left
      rw [decorate_of_tabmix r hskip' hmix]
    · have hmix' : r.ws.contains (unexpectedChar r.indentInSpaces) = false := by
        simpa using hmix
      by_cases herr :
          getWhitespaceLengthInSpaces r.ws r.tabSize % r.tabSize = 0
      · right
        rw [decorate_of_no_error r hskip' hmix' herr]
      · left
        rw [decorate_of_width_error r hskip' hmix' herr]

/-- Case analysis of the inner-frame output of `decorate`. -/
lemma decorate_innerFrame_cases (r : RunInput) :
    (decorate r).innerFrame = [] ∨
    (decorate r).innerFrame =
      decorateInnerFrame r.text r.ws r.matchStart r.tabSize r.lineLength
        r.longestLineLength r.numColors := by
  by_cases hskip : r.skipErrors = true
  · right
    rw [decorate_of_skip r hskip]
  · have hskip' : r.skipErrors = false := by simpa using hskip
    by_cases hmix : r.ws.contains (unexpectedChar r.indentInSpaces) = true
    · left
      rw [decorate_of_tabmix r hskip' hmix]
    · have hmix' : r.ws.contains (unexpectedChar r.indentInSpaces) = false := by
        simpa using hmix
      by_cases herr :
          getWhitespaceLengthInSpaces r.ws r.tabSize % r.tabSize = 0
      · right
        rw [decorate_of_no_error r hskip' hmix' herr]
      · left
        rw [decorate_of_width_error r hskip' hmix' herr]

/-- C10: with a non-empty color list, every color-group index computed for an
outer-frame range or an inner-frame range lies in `[0, numColors)`, so the
indexing into the per-color decoration lists is in bounds; and the
precondition is genuine, because the configuration loader keeps a present
empty color list instead of substituting the default. -/
theorem c10_color_group_in_bounds (r : RunInput) (hN : 1 ≤ r.numColors) :
    (∀ x ∈ (decorate r).outerFrame, x.1 < r.numColors) ∧
    (∀ dec ∈ (decorate r).innerFrame, dec.group < r.numColors) ∧
    configColors (some []) = [] := by
  refine ⟨?_, ?_, rfl⟩
  · intro x hx
    rcases decorate_outerFrame_cases r with h | h
    · rw [h] at hx
      cases hx
    · rw [h, decorateOuterFrames_eq_filterMap] at hx
      obtain ⟨s, _, hf⟩ := List.mem_filterMap.mp hx
      by_cases hd : 1 ≤ s.depth
      · rw [if_pos hd] at hf
        have hx1 : x.1 = (s.depth - 1) % r.numColors := by
          cases Option.some.inj hf
          rfl
        rw [hx1]
        exact Nat.mod_lt _ hN
      · rw [if_neg hd] at hf
        cases hf
  · intro dec hdec
    rcases decorate_innerFrame_cases r with h | h
    · rw [h] at hdec
      cases hdec
    · rw [h] at hdec
      by_cases h0 : getWhitespaceLengthInSpaces r.ws r.tabSize / r.tabSize = 0
      · simp [decorateInnerFrame, h0] at hdec
      · simp only [decorateInnerFrame, if_neg h0, List.mem_singleton] at hdec
        subst hdec
        exact Nat.mod_lt _ hN

/-- Concrete run for the C10 witness. -/
def c10In : RunInput :=
  { text := "\t\t\tabc".toList, ws := ['\t', '\t', '\t'], matchStart := 0,
    lineLength := 6, longestLineLength := 6, tabSize := 4, numColors := 2,
    indentInSpaces := false, skipErrors := false }

/-- Witness for C10 at the concrete run `c10In`. -/
theorem c10_color_group_in_bounds_witness :
    1 ≤ c10In.numColors ∧
    ((∀ x ∈ (decorate c10In).outerFrame, x.1 < c10In.numColors) ∧
     (∀ dec ∈ (decorate c10In).innerFrame, dec.group < c10In.numColors) ∧
     configColors (some []) = []) :=
  ⟨by decide, c10_color_group_in_bounds c10In (by decide)⟩

end FrameRainbow
